import Mathlib

/-!
Shallow embedding of the node readiness / consistency coordination layer of
`go-controller/pkg/node` (files `default_node_network_controller.go` and
`heartbeat_dpu.go`), together with theorems settling the frozen claims about
it.  External collaborators (the Kubernetes API, the OVN southbound database,
netlink/conntrack, ARP) are passed in as explicit parameters or oracles; the
control flow of each embedded function mirrors the Go source.
-/

namespace OvnKubeNode

/-! ## Heartbeat (heartbeat_dpu.go) -/

/-- One lease object as seen by `isHeartBeatValid`: only the fields the
function reads.  Times are integers (a lease is expired when
`renewTime + leaseDurationSeconds < now`, mirroring
`lease.Spec.RenewTime.Time.Add(duration).Before(time.Now())`). -/
structure Lease where
  name : String
  renewTime : Int
  leaseDurationSeconds : Int
deriving DecidableEq, Repr

/-- The loop of `isHeartBeatValid` over the listed leases: the first lease
with `renewTime + leaseDurationSeconds < now` yields `(false, "lease <name>
is expired")`; if none is expired the result is `(true, nil)`. -/
def checkLeases (now : Int) : List Lease → Bool × Option String
  | [] => (true, none)
  | l :: rest =>
    if l.renewTime + l.leaseDurationSeconds < now then
      (false, some ("lease " ++ l.name ++ " is expired"))
    else
      checkLeases now rest

/-- `isHeartBeatValid(ctx, client, ns)` from heartbeat_dpu.go.  The lease
list call is embedded as its result `listRes` (`.error` = the List call
failed).  An empty list yields `(false, "no lease found in namespace <ns>")`;
otherwise the leases are scanned by `checkLeases`. -/
def isHeartBeatValid (ns : String) (listRes : Except String (List Lease))
    (now : Int) : Bool × Option String :=
  match listRes with
  | .error e => (false, some e)
  | .ok leases =>
    if leases.length = 0 then
      (false, some ("no lease found in namespace " ++ ns))
    else
      checkLeases now leases

/-! ## Zone-match wait (Start, lines 710-734) -/

/-- Poll interval of the zone-match wait, in milliseconds
(`500*time.Millisecond` at the `wait.PollUntilContextTimeout` call). -/
def zoneMatchPollMs : Nat := 500

/-- Timeout of the zone-match wait, in seconds (`300*time.Second`). -/
def zoneMatchTimeoutSec : Nat := 300

/-- Result of one `getOVNSBZone()` call: either the zone string stored in
the southbound database, or an error. -/
inductive ZoneObs where
  | zone (z : String)
  | getErr (msg : String)
deriving DecidableEq, Repr

/-- The `err1` variable of the zone-match polling loop: the reason the most
recent poll iteration returned false. -/
inductive ZoneErr1 where
  | noneYet
  | getFailed (msg : String)
  | mismatch (observed : String)
deriving DecidableEq, Repr

/-- The zone-match polling loop.  `obss` is the finite sequence of
`getOVNSBZone` results seen before the 300s deadline.  Each iteration:
a get error records `err1 = getFailed` and retries; a zone different from
`desired` records `err1 = mismatch observed` and retries; a zone equal to
`desired` succeeds immediately.  Exhausting `obss` is the timeout and the
returned error carries the last `err1`. -/
def zoneMatchRun (desired : String) : List ZoneObs → ZoneErr1 → Except ZoneErr1 String
  | [], e1 => .error e1
  | o :: rest, _e1 =>
    match o with
    | .getErr m => zoneMatchRun desired rest (.getFailed m)
    | .zone z =>
      if desired ≠ z then
        zoneMatchRun desired rest (.mismatch z)
      else
        .ok z

/-- An observation on which the zone-match condition function returns true:
a successful get whose zone equals the desired zone. -/
def zoneObsMatches (desired : String) (o : ZoneObs) : Bool :=
  match o with
  | .zone z => desired = z
  | .getErr _ => false

/-! ## Interconnect upgrade barrier (Start, lines 843-958, "HACK" block) -/

/-- Poll interval of the upgrade-barrier wait, in milliseconds
(`500*time.Millisecond` at the barrier's `wait.PollUntilContextTimeout`). -/
def barrierPollMs : Nat := 500

/-- Timeout of the upgrade-barrier wait, in seconds (`300*time.Second` at the
barrier's `wait.PollUntilContextTimeout`; the `klog.Exitf` message on timeout
speaks of "5 minutes"). -/
def barrierTimeoutSec : Nat := 300

/-- Result of `util.ParseNodeHostSubnetAnnotation` on one node: annotation
missing (`IsAnnotationNotSetError`, the node is skipped), some other parse
error (fails the pass), or the parsed subnets (abstract strings). -/
inductive SubnetAnnotation where
  | notSet
  | invalid
  | parsed (subnets : List String)

/-- One node as seen by the barrier's nodes-ready loop: name, the zone from
`util.GetNodeZone`, the `util.NoHostSubnet` flag and the subnet annotation. -/
structure NodeInfo where
  name : String
  zone : String
  noHostSubnet : Bool
  subnets : SubnetAnnotation

/-- One service as seen by the barrier's services-ready loop.
`typeHasClusterIP` is `util.ServiceTypeHasClusterIP` (true for the
ClusterIP / NodePort / LoadBalancer service types). -/
structure Service where
  ns : String
  name : String
  clusterIP : String
  typeHasClusterIP : Bool
deriving DecidableEq, Repr

/-- Modelled from the spec: `util.IsClusterIPSet` is outside src/ (only its
caller is); per the spec a service without a cluster IP (headless, cluster IP
empty or "None") is excluded, so the cluster IP is "set" when it is neither
empty nor the sentinel "None". -/
def isClusterIPSet (s : Service) : Bool :=
  s.clusterIP ≠ "None" && s.clusterIP ≠ ""

/-- Go `strings.Contains haystack needle`: the needle occurs as a contiguous
substring of the haystack. -/
def containsSubstr (haystack needle : String) : Bool :=
  (List.range (haystack.toList.length + 1)).any
    (fun i => needle.toList.isPrefixOf (haystack.toList.drop i))

/-- `ovn-sbctl --bare --columns name find Load_Balancer` output: the names of
the load-balancer rows of the southbound database, one per line
(`fetchLBNames` returns this blob, or the empty string on error). -/
def joinLBNames (lbTable : List String) : String :=
  String.intercalate "\x0a" lbTable

/-- `lbExists(lbNames, namespace, name)` (lines 656-664): stitches
`"Service_" + namespace + "/" + name` and tests `strings.Contains` against
the fetched name blob. -/
def lbExists (lbNames nspace name : String) : Bool :=
  containsSubstr lbNames ("Service_" ++ nspace ++ "/" ++ name)

/-- One pod as seen by the barrier's pods-ready loop. -/
structure BarrierPod where
  ns : String
  name : String
  nodeName : String
  scheduled : Bool
  completed : Bool
  hostNetwork : Bool

/-- The nodes-ready loop body (lines 876-895): every other node whose zone
differs from the local configured zone and which can host subnets must have
all its annotated subnets matched by a southbound logical-router static
route (`checkOVNSBNodeLRSR`, abstracted as the oracle `lrsr`).  A missing
subnet annotation skips the node; an invalid one, or a missing route, fails
the pass. -/
def nodesReadyLoop (localName localZone : String) (lrsr : String → Bool) :
    List NodeInfo → Bool
  | [] => true
  | n :: rest =>
    if localName ≠ n.name && n.zone ≠ localZone && !n.noHostSubnet then
      match n.subnets with
      | .notSet => nodesReadyLoop localName localZone lrsr rest
      | .invalid => false
      | .parsed subnets =>
        if subnets.all lrsr then nodesReadyLoop localName localZone lrsr rest
        else false
    else
      nodesReadyLoop localName localZone lrsr rest

/-- The services-ready loop body (lines 907-915): headless services (type
without cluster IP, or cluster IP not set) are skipped; every other service
must pass `lbExists` against the fetched load-balancer name blob. -/
def servicesReadyLoop (lbNames : String) : List Service → Bool
  | [] => true
  | s :: rest =>
    if !(s.typeHasClusterIP && isClusterIPSet s) then
      servicesReadyLoop lbNames rest
    else if lbExists lbNames s.ns s.name then
      servicesReadyLoop lbNames rest
    else
      false

/-- The pods-ready loop body (lines 925-936): unscheduled, completed,
host-network and remote pods are skipped; every remaining local pod must
have a southbound port binding (`portExists`, abstracted as the oracle
`portEx`). -/
def podsReadyLoop (localName : String) (portEx : String → String → Bool) :
    List BarrierPod → Bool
  | [] => true
  | p :: rest =>
    if !p.scheduled || p.completed || p.hostNetwork then
      podsReadyLoop localName portEx rest
    else if p.nodeName ≠ localName then
      podsReadyLoop localName portEx rest
    else if portEx p.ns p.name then
      podsReadyLoop localName portEx rest
    else
      false

/-- The environment one barrier polling pass runs against: the results of the
cluster list calls and the southbound-database oracles at that instant. -/
structure PassEnv where
  nodesRes : Except String (List NodeInfo)
  lrsr : String → Bool
  servicesRes : Except String (List Service)
  lbTable : List String
  lbFetchOk : Bool
  podsRes : Except String (List BarrierPod)
  portEx : String → String → Bool

/-- The closure-captured flags `syncNodes, syncServices, syncPods` of the
barrier (line 863): they persist across polling passes. -/
structure BarrierState where
  syncNodes : Bool
  syncServices : Bool
  syncPods : Bool
deriving DecidableEq, Repr

/-- Which of the three readiness predicates a pass actually evaluated. -/
structure PassEvals where
  nodesEvaluated : Bool
  servicesEvaluated : Bool
  podsEvaluated : Bool
deriving DecidableEq, Repr

/-- The `if !syncNodes { ... }` block of one pass: skipped when the flag is
already true, otherwise evaluated, setting the flag on success and failing
the pass (without touching the flag) otherwise. -/
def nodesBlock (localName localZone : String) (env : PassEnv)
    (st : BarrierState) : BarrierState × Bool :=
  if st.syncNodes then (st, true)
  else
    match env.nodesRes with
    | .error _ => (st, false)
    | .ok nodes =>
      if nodesReadyLoop localName localZone env.lrsr nodes then
        ({ st with syncNodes := true }, true)
      else (st, false)

/-- The `if !syncServices { ... }` block of one pass.  `fetchLBNames` returns
the empty string when the southbound query fails (and every cluster-IP
service then fails `lbExists`). -/
def servicesBlock (env : PassEnv) (st : BarrierState) : BarrierState × Bool :=
  if st.syncServices then (st, true)
  else
    match env.servicesRes with
    | .error _ => (st, false)
    | .ok services =>
      let lbNames := if env.lbFetchOk then joinLBNames env.lbTable else ""
      if servicesReadyLoop lbNames services then
        ({ st with syncServices := true }, true)
      else (st, false)

/-- The `if !syncPods { ... }` block of one pass. -/
def podsBlock (localName : String) (env : PassEnv) (st : BarrierState) :
    BarrierState × Bool :=
  if st.syncPods then (st, true)
  else
    match env.podsRes with
    | .error _ => (st, false)
    | .ok pods =>
      if podsReadyLoop localName env.portEx pods then
        ({ st with syncPods := true }, true)
      else (st, false)

/-- One polling pass of the barrier (the closure at lines 868-941): the three
blocks run sequentially, each failure returns `(false, nil)` immediately (the
later blocks are not reached), and the pass returns true only when all three
blocks have completed.  Also records which predicates were evaluated. -/
def barrierPass (localName localZone : String) (env : PassEnv)
    (st : BarrierState) : BarrierState × Bool × PassEvals :=
  let nEval := !st.syncNodes
  let r1 := nodesBlock localName localZone env st
  if !r1.2 then (r1.1, false, ⟨nEval, false, false⟩)
  else
    let sEval := !r1.1.syncServices
    let r2 := servicesBlock env r1.1
    if !r2.2 then (r2.1, false, ⟨nEval, sEval, false⟩)
    else
      let pEval := !r2.1.syncPods
      let r3 := podsBlock localName env r2.1
      (r3.1, r3.2, ⟨nEval, sEval, pEval⟩)

/-- The sequence of (entry state, evaluations) of the passes the barrier
executes against the environment sequence `envs`, stopping after the first
pass that returns true. -/
def barrierTrace (localName localZone : String) :
    List PassEnv → BarrierState → List (BarrierState × PassEvals)
  | [], _ => []
  | env :: rest, st =>
    let r := barrierPass localName localZone env st
    (st, r.2.2) :: (if r.2.1 then [] else barrierTrace localName localZone rest r.1)

/-- Whether the barrier completes (some pass returns true) before exhausting
the environment sequence, i.e. before the timeout. -/
def barrierDone (localName localZone : String) :
    List PassEnv → BarrierState → Bool
  | [], _ => false
  | env :: rest, st =>
    let r := barrierPass localName localZone env st
    if r.2.1 then true else barrierDone localName localZone rest r.1

/-! ### Post-barrier sequence (lines 942-957) -/

/-- Observable actions of the post-barrier code: the
`util.SetNodeZoneMigrated` marker write, the `nodeAnnotator.Run()`
persistence call, and one `auth.SetDBAuth()` credential retarget per
database ("north", then "south"). -/
inductive HackEvent where
  | setMarker
  | persistAnnotations
  | retargetAuth (db : String)
deriving DecidableEq, Repr

/-- Outcome of the HACK block: `klog.Exitf` terminates the agent process. -/
inductive HackOutcome where
  | fatalExit
  | completed
deriving DecidableEq, Repr

/-- The straight-line code after a successful barrier (lines 945-957): set
the migrated marker (fatal exit on failure), persist the annotations (fatal
exit on failure), then retarget the north and south database credentials
(fatal exit on failure).  Returns the trace of attempted actions and the
outcome. -/
def afterBarrier (setMarkerOk persistOk authNorthOk authSouthOk : Bool) :
    List HackEvent × HackOutcome :=
  if !setMarkerOk then ([.setMarker], .fatalExit)
  else if !persistOk then ([.setMarker, .persistAnnotations], .fatalExit)
  else if !authNorthOk then
    ([.setMarker, .persistAnnotations, .retargetAuth "north"], .fatalExit)
  else if !authSouthOk then
    ([.setMarker, .persistAnnotations, .retargetAuth "north",
      .retargetAuth "south"], .fatalExit)
  else
    ([.setMarker, .persistAnnotations, .retargetAuth "north",
      .retargetAuth "south"], .completed)

/-- The whole HACK block (lines 863-958): run the barrier; on timeout
`klog.Exitf` terminates the process with no marker write and no retarget
(lines 942-944); on completion the post-barrier sequence runs. -/
def interconnectUpgradeHack (localName localZone : String)
    (envs : List PassEnv) (st0 : BarrierState)
    (setMarkerOk persistOk authNorthOk authSouthOk : Bool) :
    List HackEvent × HackOutcome :=
  if barrierDone localName localZone envs st0 then
    afterBarrier setMarkerOk persistOk authNorthOk authSouthOk
  else
    ([], .fatalExit)

/-- In a HACK-block event trace, every credential retarget is preceded by a
marker write and by an annotation-persistence call. -/
def markerBeforeRetarget (tr : List HackEvent) : Bool :=
  (List.range tr.length).all fun i =>
    match tr.get? i with
    | some (.retargetAuth _) =>
      ((List.range i).any fun j => tr.get? j = some .setMarker) &&
      ((List.range i).any fun j => tr.get? j = some .persistAnnotations)
    | _ => true

/-! ## Endpoint-slice conntrack reconciliation
(`reconcileConntrackUponEndpointSliceEvents`, lines 1282-1319) -/

/-- The protocols of `EndpointPort.Protocol`. -/
inductive Protocol where
  | TCP
  | UDP
  | SCTP
deriving DecidableEq, Repr

/-- One port of an endpoint slice: `*oldPort.Protocol`, `*oldPort.Port`. -/
structure EndpointPort where
  protocol : Protocol
  port : Int
deriving DecidableEq, Repr

/-- One endpoint of an endpoint slice: its list of addresses. -/
structure Endpoint where
  addresses : List String
deriving DecidableEq, Repr

/-- An endpoint slice: namespace/name plus the fields the reconciler walks. -/
structure EndpointSlice where
  ns : String
  name : String
  ports : List EndpointPort
  endpoints : List Endpoint
deriving DecidableEq, Repr

/-- Result of `nc.watchFactory.GetService` for the slice's service, as
discriminated by the caller via `kerrors.IsNotFound`. -/
inductive SvcLookup where
  | found
  | notFound
  | otherErr (msg : String)
deriving DecidableEq, Repr

/-- One conntrack deletion request issued by
`util.DeleteConntrackServicePort(ip, port, protocol, ...)`. -/
structure Deletion where
  ip : String
  port : Int
  protocol : Protocol
deriving DecidableEq, Repr

/-- What the call to `reconcileConntrackUponEndpointSliceEvents` does:
returns an error, returns nil after issuing the listed deletion requests, or
dereferences a nil pointer (a Go runtime panic, so the function never
returns). -/
inductive ReconcileResult where
  | panicked
  | errored (msg : String)
  | ok (issued : List Deletion)
deriving DecidableEq, Repr

/-- Modelled from the spec: `util.DoesEndpointSliceContainEndpoint` is
outside src/ (only its caller is); per the spec it tests whether the
address+port+protocol "is still present in `new`" — some port of the slice
carries that port number and protocol, and some endpoint of the slice lists
that address. -/
def doesEndpointSliceContainEndpoint (es : EndpointSlice) (ip : String)
    (port : Int) (proto : Protocol) : Bool :=
  (es.ports.any fun p => p.port = port && p.protocol = proto) &&
  (es.endpoints.any fun ep => ep.addresses.any fun a => a = ip)

/-- The deletion requests issued by the triple loop over the old slice's
ports / endpoints / addresses (lines 1297-1316): non-UDP ports are skipped;
an address still present in the non-nil new slice is skipped; every other
(address, port, UDP) triple gets one `DeleteConntrackServicePort` request
(`normIP` is `utilnet.ParseIPSloppy(oldIP).String()`). -/
def staleUDPDeletions (normIP : String → String)
    (old : EndpointSlice) (nw : Option EndpointSlice) : List Deletion :=
  old.ports.flatMap fun p =>
    if p.protocol ≠ .UDP then []
    else
      old.endpoints.flatMap fun ep =>
        ep.addresses.filterMap fun oldIP =>
          let oldIPStr := normIP oldIP
          match nw with
          | some n =>
            if doesEndpointSliceContainEndpoint n oldIPStr p.port p.protocol then
              none
            else
              some ⟨oldIPStr, p.port, p.protocol⟩
          | none => some ⟨oldIPStr, p.port, p.protocol⟩

/-- `reconcileConntrackUponEndpointSliceEvents(old, new)`.  External calls
are embedded as parameters: `nameRes` is
`util.ServiceNamespacedNameFromEndpointSlice(old)`, `svcRes` the service
lookup, `normIP` the sloppy IP normalization, and `delFails` tells which
deletion requests fail (their errors are only logged at line 1312: the
`errors` slice declared at line 1283 is never appended to, so the final
`apierrors.NewAggregate(errors)` is always nil).  When the lookup fails with
a non-NotFound error, the error message is formatted from
`newEndpointSlice.Namespace` (lines 1294-1295), which panics when the new
slice is nil. -/
def reconcileConntrackUponEndpointSliceEvents
    (nameRes : Except String Unit) (svcRes : SvcLookup)
    (normIP : String → String) (_delFails : Deletion → Bool)
    (old nw : Option EndpointSlice) : ReconcileResult :=
  match old with
  | none => .ok []
  | some o =>
    match nameRes with
    | .error e => .errored ("cannot reconcile conntrack: " ++ e)
    | .ok _ =>
      match svcRes with
      | .otherErr e =>
        match nw with
        | none => .panicked
        | some n =>
          .errored ("error while retrieving service for endpointslice " ++
            n.ns ++ "/" ++ n.name ++ " when reconciling conntrack: " ++ e)
      | _ => .ok (staleUDPDeletions normIP o nw)

/-! ## External-gateway conntrack reconciliation
(`syncConntrackForExternalGateways`, lines 1355-1424) -/

/-- A namespace as seen by the reconciler: its name and the two
external-gateway annotation values (raw comma-separated strings; an absent
annotation reads as the empty string in Go). -/
structure NamespaceInfo where
  name : String
  externalGatewayPodIPsAnnotation : String
  routingExternalGWsAnnotation : String
deriving DecidableEq, Repr

/-- Go `strings.Split(s, ",")` on the character list of `s`: the text
between consecutive commas; splitting the empty string yields `[""]`. -/
def splitCommaChars : List Char → List Char → List String
  | [], acc => [String.mk acc.reverse]
  | c :: rest, acc =>
    if c = ',' then String.mk acc.reverse :: splitCommaChars rest []
    else splitCommaChars rest (c :: acc)

/-- Go `strings.Split(s, ",")`. -/
def splitComma (s : String) : List String :=
  splitCommaChars s.toList []

/-- `sets.String.Insert`: add an element unless already present. -/
def insertUnique (l : List String) (x : String) : List String :=
  if x ∈ l then l else l ++ [x]

/-- The gateway-IP set (lines 1356-1362): the policy-engine IPs united with
`strings.Split` of each annotation on ",".  Go's `sets.String` keeps one
copy of each element (note `strings.Split("", ",")` is `[""]`, so the empty
string enters the set when an annotation is absent; it is skipped later by
the `len(gwIP) > 0` test). -/
def gatewayIPsOf (apbIPs : List String) (ns : NamespaceInfo) : List String :=
  (apbIPs ++ splitComma ns.externalGatewayPodIPsAnnotation ++
    splitComma ns.routingExternalGWsAnnotation).foldl insertUnique []

/-- The resolution of one gateway IP in the fan-out at lines 1366-1387:
skipped when empty or IPv6; skipped when the ARP lookup errs (`arp ip =
none`) or returns an empty hardware address; otherwise the byte-reversed
hardware address is stored. -/
def resolveGatewayMAC (isIPv6 : String → Bool) (arp : String → Option (List Nat))
    (gwIP : String) : Option (List Nat) :=
  if gwIP.length > 0 && !isIPv6 gwIP then
    match arp gwIP with
    | none => none
    | some hwAddr => if hwAddr.length > 0 then some hwAddr.reverse else none
  else
    none

/-- The collected `validMACs` (lines 1390-1394), one entry per distinct
gateway IP that resolved. -/
def collectValidMACs (isIPv6 : String → Bool) (arp : String → Option (List Nat))
    (ips : List String) : List (List Nat) :=
  ips.filterMap (resolveGatewayMAC isIPv6 arp)

/-- The sentinel label of line 1399: the bytes of
`"does-not-contain-anything"`, a 25-byte value, guaranteed not to equal any
6-byte hardware address. -/
def sentinelLabel : List Nat :=
  "does-not-contain-anything".toList.map Char.toNat

/-- Lines 1395-1400: an empty allow-list is replaced by the one-element
sentinel list so that "purge everything" is a non-matching allow-list. -/
def finalAllowList (macs : List (List Nat)) : List (List Nat) :=
  if macs.length = 0 then [sentinelLabel] else macs

/-- Result of `util.GetPodIPsOfNetwork` for one pod: the IPs, the tolerated
`ErrNoPodIPFound`, or another error (collected into the aggregate). -/
inductive PodIPsResult where
  | ips (ips : List String)
  | errNoPodIPFound
  | errOther (msg : String)

/-- One pod of the namespace as the reconciler sees it. -/
structure GwPod where
  ns : String
  name : String
  ipsResult : PodIPsResult

/-- One `util.DeleteConntrack(ip, 0, UDP, ConntrackOrigDstIP, labels)`
request issued at line 1417: destination IP, with the allow-list of
next-hop labels that protects matching entries from deletion. -/
structure CtDeletion where
  ip : String
  port : Int
  protocol : Protocol
  labelFilter : List (List Nat)
deriving DecidableEq, Repr

/-- The IPs the per-pod loop iterates over: the fetched IPs, or nothing when
the fetch failed (with a non-`ErrNoPodIPFound` failure contributing one
error to the aggregate). -/
def podLoopIPs : PodIPsResult → List String
  | .ips l => l
  | .errNoPodIPFound => []
  | .errOther _ => []

/-- The per-pod error contributions of lines 1410-1413. -/
def podFetchErrors (p : GwPod) : List String :=
  match p.ipsResult with
  | .errOther m =>
    ["unable to fetch IP for pod " ++ p.ns ++ "/" ++ p.name ++ ": " ++ m]
  | _ => []

/-- Outcome of `syncConntrackForExternalGateways`: an early error return
(policy-engine lookup at line 1357 or pod list at line 1403), or the loop
completed, having issued `issued` and returning
`apierrors.NewAggregate(aggErrors)` (nil when the list is empty). -/
inductive SyncOutcome where
  | earlyErr (msg : String)
  | done (issued : List CtDeletion) (aggErrors : List String)
deriving DecidableEq, Repr

/-- The per-pod loop of lines 1407-1422: for every pod, collect its IP-fetch
error if any, then issue one UDP deletion per pod IP carrying the final
allow-list, collecting each deletion failure (`delFail ip = some msg`). -/
def podSweep (allow : List (List Nat)) (delFail : String → Option String)
    (pods : List GwPod) : List CtDeletion × List String :=
  (pods.flatMap fun p =>
      (podLoopIPs p.ipsResult).map fun ip => CtDeletion.mk ip 0 .UDP allow,
   pods.flatMap fun p =>
      podFetchErrors p ++
        (podLoopIPs p.ipsResult).filterMap fun ip =>
          (delFail ip).map fun m =>
            "failed to delete conntrack entry for pod " ++ ip ++ ": " ++ m)

/-- `syncConntrackForExternalGateways(newNs)`.  External calls are embedded
as parameters: `apbRes` is the policy-engine gateway-IP lookup, `isIPv6` /
`arp` drive the MAC resolution fan-out, `podsRes` is the namespace pod list,
and `delFail` tells which conntrack deletions fail and with what message. -/
def syncConntrackForExternalGateways (apbRes : Except String (List String))
    (ns : NamespaceInfo) (isIPv6 : String → Bool)
    (arp : String → Option (List Nat))
    (podsRes : Except String (List GwPod))
    (delFail : String → Option String) : SyncOutcome :=
  match apbRes with
  | .error e =>
    .earlyErr ("unable to retrieve gateway IPs for Admin Policy Based " ++
      "External Route objects: " ++ e)
  | .ok apbIPs =>
    let allow := finalAllowList
      (collectValidMACs isIPv6 arp (gatewayIPsOf apbIPs ns))
    match podsRes with
    | .error e => .earlyErr ("unable to get pods from informer: " ++ e)
    | .ok pods =>
      let r := podSweep allow delFail pods
      .done r.1 r.2

/-! ## Theorems -/

/-- The scan of `checkLeases` reports validity exactly when no listed lease
is expired. -/
theorem checkLeases_fst_true_iff (now : Int) (ls : List Lease) :
    (checkLeases now ls).1 = true ↔
      ∀ l ∈ ls, ¬(l.renewTime + l.leaseDurationSeconds < now) := by
  induction ls with
  | nil => simp [checkLeases]
  | cons l rest ih =>
    by_cases h : l.renewTime + l.leaseDurationSeconds < now
    · simp [checkLeases, h]
    · simp [checkLeases, h, ih]
      intro _
      omega

/-- C9: `isHeartBeatValid` returns false with an error on an empty lease
list; returns false whenever some listed lease satisfies
`renewTime + leaseDurationSeconds < now`, regardless of the other leases;
and returns true exactly when the list is non-empty and no lease is
expired. -/
theorem isHeartBeatValid_spec (ns : String) (leases : List Lease) (now : Int) :
    isHeartBeatValid ns (.ok []) now
        = (false, some ("no lease found in namespace " ++ ns))
    ∧ (∀ l ∈ leases, l.renewTime + l.leaseDurationSeconds < now →
        (isHeartBeatValid ns (.ok leases) now).1 = false)
    ∧ ((isHeartBeatValid ns (.ok leases) now).1 = true ↔
        leases ≠ [] ∧
          ∀ l ∈ leases, ¬(l.renewTime + l.leaseDurationSeconds < now)) := by
  refine ⟨rfl, ?_, ?_⟩
  · intro l hl hexp
    cases hlen : leases.length with
    | zero => cases leases with
      | nil => cases hl
      | cons a b => cases hlen
    | succ n =>
      have hne : ¬leases.length = 0 := by omega
      simp only [isHeartBeatValid, hne, if_false]
      rcases hb : (checkLeases now leases).1 with _ | _
      · rfl
      · exact absurd hexp ((checkLeases_fst_true_iff now leases).mp hb l hl)
  · by_cases hnil : leases = []
    · subst hnil
      simp [isHeartBeatValid]
    · have hne : ¬leases.length = 0 := by
        simpa [List.length_eq_zero] using hnil
      simp only [isHeartBeatValid, hne, if_false]
      rw [checkLeases_fst_true_iff]
      simp [hnil]

/-- C9 witness: with leases `a` (expired at `now = 50`) and `b` (valid),
the heartbeat is reported invalid; with only `b` it is valid; the empty
list is invalid. -/
theorem isHeartBeatValid_spec_witness :
    isHeartBeatValid "dpu-lease-zone" (.ok []) 50
        = (false, some ("no lease found in namespace " ++ "dpu-lease-zone"))
    ∧ (isHeartBeatValid "dpu-lease-zone"
        (.ok [⟨"a", 0, 40⟩, ⟨"b", 100, 40⟩]) 50).1 = false
    ∧ (isHeartBeatValid "dpu-lease-zone" (.ok [⟨"b", 100, 40⟩]) 50).1 = true :=
  ⟨(isHeartBeatValid_spec "dpu-lease-zone" [] 50).1,
   (isHeartBeatValid_spec "dpu-lease-zone" [⟨"a", 0, 40⟩, ⟨"b", 100, 40⟩] 50).2.1
     ⟨"a", 0, 40⟩ (by decide) (by decide),
   (isHeartBeatValid_spec "dpu-lease-zone" [⟨"b", 100, 40⟩] 50).2.2.mpr
     ⟨by decide, by decide⟩⟩

/-- C10: on a delete event (non-nil old slice, nil new slice), when the
service lookup fails with an error other than not-found, the function
dereferences the nil new slice while formatting the error message and
panics instead of returning the lookup error. -/
theorem reconcile_nil_new_panics (svcErr : String) (normIP : String → String)
    (delFails : Deletion → Bool) (old : EndpointSlice) :
    reconcileConntrackUponEndpointSliceEvents (.ok ()) (.otherErr svcErr)
      normIP delFails (some old) none = .panicked := rfl

/-- Every deletion request issued by the endpoint-slice triple loop is for
UDP: non-UDP ports are skipped before any address is considered. -/
theorem staleUDPDeletions_protocol (normIP : String → String)
    (o : EndpointSlice) (nw : Option EndpointSlice) :
    ∀ d ∈ staleUDPDeletions normIP o nw, d.protocol = Protocol.UDP := by
  intro d hd
  unfold staleUDPDeletions at hd
  rw [List.mem_flatMap] at hd
  obtain ⟨p, _hp, hd⟩ := hd
  by_cases hproto : p.protocol = Protocol.UDP
  · rw [if_neg (fun h => h hproto)] at hd
    rw [List.mem_flatMap] at hd
    obtain ⟨ep, _hep, hd⟩ := hd
    rw [List.mem_filterMap] at hd
    obtain ⟨a, _ha, hfm⟩ := hd
    cases nw with
    | none =>
      simp only [Option.some.injEq] at hfm
      rw [← hfm]
      exact hproto
    | some n =>
      dsimp only at hfm
      by_cases hc : doesEndpointSliceContainEndpoint n (normIP a) p.port
          p.protocol = true
      · rw [if_pos hc] at hfm
        cases hfm
      · rw [if_neg hc] at hfm
        injection hfm with h2
        rw [← h2]
        exact hproto
  · rw [if_pos hproto] at hd
    cases hd

/-- C4: the endpoint-slice reconciliation is a no-op (no deletion, nil
error) when the old slice is nil; on an old slice with exactly one UDP
endpoint (one address, one UDP port) absent from the new slice, it issues
exactly one deletion targeting that (IP, port, protocol); and only UDP
targets are ever deleted. -/
theorem reconcile_endpointslice_spec
    (nameRes : Except String Unit) (svcRes : SvcLookup)
    (normIP : String → String) (delFails : Deletion → Bool)
    (nw : Option EndpointSlice) (ns0 nm0 ip : String) (port : Int)
    (hsvc : svcRes = .found ∨ svcRes = .notFound)
    (hmiss : ∀ n, nw = some n →
      doesEndpointSliceContainEndpoint n (normIP ip) port Protocol.UDP = false) :
    reconcileConntrackUponEndpointSliceEvents nameRes svcRes normIP delFails
        none nw = .ok []
    ∧ reconcileConntrackUponEndpointSliceEvents (.ok ()) svcRes normIP delFails
        (some ⟨ns0, nm0, [⟨.UDP, port⟩], [⟨[ip]⟩]⟩) nw
        = .ok [⟨normIP ip, port, .UDP⟩]
    ∧ (∀ (nameRes2 : Except String Unit) (svcRes2 : SvcLookup)
         (old2 nw2 : Option EndpointSlice) (issued : List Deletion),
        reconcileConntrackUponEndpointSliceEvents nameRes2 svcRes2 normIP
          delFails old2 nw2 = .ok issued →
        ∀ d ∈ issued, d.protocol = Protocol.UDP) := by
  refine ⟨rfl, ?_, ?_⟩
  · have hstale : staleUDPDeletions normIP ⟨ns0, nm0, [⟨.UDP, port⟩], [⟨[ip]⟩]⟩ nw
        = [⟨normIP ip, port, .UDP⟩] := by
      cases nw with
      | none => rfl
      | some n =>
        have hc := hmiss n rfl
        simp [staleUDPDeletions, hc]
    rcases hsvc with h | h <;> subst h <;>
      simp [reconcileConntrackUponEndpointSliceEvents, hstale]
  · intro nameRes2 svcRes2 old2 nw2 issued hok d hd
    cases old2 with
    | none =>
      simp only [reconcileConntrackUponEndpointSliceEvents, ReconcileResult.ok.injEq] at hok
      rw [← hok] at hd
      cases hd
    | some o =>
      cases nameRes2 with
      | error e => cases hok
      | ok u =>
        cases svcRes2 with
        | otherErr e =>
          cases nw2 with
          | none => cases hok
          | some n => cases hok
        | found =>
          simp only [reconcileConntrackUponEndpointSliceEvents,
            ReconcileResult.ok.injEq] at hok
          rw [← hok] at hd
          exact staleUDPDeletions_protocol normIP o nw2 d hd
        | notFound =>
          simp only [reconcileConntrackUponEndpointSliceEvents,
            ReconcileResult.ok.injEq] at hok
          rw [← hok] at hd
          exact staleUDPDeletions_protocol normIP o nw2 d hd

/-- C4 witness: a delete event for a slice with the single UDP endpoint
10.0.0.9:53 and a new slice not containing it issues exactly that one
deletion request; the nil-old case is a no-op. -/
theorem reconcile_endpointslice_spec_witness :
    reconcileConntrackUponEndpointSliceEvents (.ok ()) .notFound id
        (fun _ => false) none (some ⟨"ns", "sl2", [], []⟩) = .ok []
    ∧ reconcileConntrackUponEndpointSliceEvents (.ok ()) .notFound id
        (fun _ => false) (some ⟨"ns", "sl", [⟨.UDP, 53⟩], [⟨["10.0.0.9"]⟩]⟩)
        (some ⟨"ns", "sl2", [], []⟩)
        = .ok [⟨"10.0.0.9", 53, .UDP⟩] :=
  have h := reconcile_endpointslice_spec (.ok ()) .notFound id (fun _ => false)
    (some ⟨"ns", "sl2", [], []⟩) "ns" "sl" "10.0.0.9" 53 (Or.inr rfl)
    (by intro n hn; cases hn; decide)
  ⟨h.1, h.2.1⟩

/-- C8: at a failing input of the endpoint-slice pass (the deletion for
10.0.0.1 fails), the remaining target 10.0.0.2 is still attempted, but the
returned aggregate error is nil — the failure is only logged, never
appended to the `errors` slice — whereas the external-gateway pass does
collect its deletion failures into the returned aggregate. -/
theorem conntrack_failures_not_aggregated :
    reconcileConntrackUponEndpointSliceEvents (.ok ()) .notFound id
        (fun d => d.ip = "10.0.0.1")
        (some ⟨"ns", "sl", [⟨.UDP, 53⟩], [⟨["10.0.0.1", "10.0.0.2"]⟩]⟩) none
      = .ok [⟨"10.0.0.1", 53, .UDP⟩, ⟨"10.0.0.2", 53, .UDP⟩]
    ∧ syncConntrackForExternalGateways (.ok []) ⟨"gwns", "", ""⟩
        (fun _ => false) (fun _ => none)
        (.ok [⟨"gwns", "p", .ips ["10.0.0.1", "10.0.0.2"]⟩])
        (fun ip => if ip = "10.0.0.1" then some "boom" else none)
      = .done [⟨"10.0.0.1", 0, .UDP, [sentinelLabel]⟩,
               ⟨"10.0.0.2", 0, .UDP, [sentinelLabel]⟩]
              ["failed to delete conntrack entry for pod 10.0.0.1: boom"] := by
  constructor
  · rfl
  · decide

/-- C3: when every IP of the computed gateway-IP set fails to resolve to a
hardware address (in particular when the set carries no real IP), the
allow-list becomes exactly the one sentinel element — a 25-byte value that
cannot equal any 6-byte hardware address — and one UDP conntrack deletion
carrying that one-element allow-list is issued for every IP of every local
pod of the namespace. -/
theorem syncConntrack_sentinel_purge (apbIPs : List String)
    (ns : NamespaceInfo) (isIPv6 : String → Bool)
    (arp : String → Option (List Nat)) (pods : List GwPod)
    (delFail : String → Option String)
    (hfail : ∀ ip ∈ gatewayIPsOf apbIPs ns,
      resolveGatewayMAC isIPv6 arp ip = none) :
    finalAllowList (collectValidMACs isIPv6 arp (gatewayIPsOf apbIPs ns))
        = [sentinelLabel]
    ∧ syncConntrackForExternalGateways (.ok apbIPs) ns isIPv6 arp (.ok pods)
        delFail
        = .done (pods.flatMap fun p =>
            (podLoopIPs p.ipsResult).map fun ip =>
              CtDeletion.mk ip 0 .UDP [sentinelLabel])
          (podSweep [sentinelLabel] delFail pods).2
    ∧ sentinelLabel.length = 25
    ∧ (∀ mac : List Nat, mac.length = 6 → mac ≠ sentinelLabel) := by
  have hcoll : collectValidMACs isIPv6 arp (gatewayIPsOf apbIPs ns) = [] :=
    List.filterMap_eq_nil_iff.mpr hfail
  have hallow : finalAllowList
      (collectValidMACs isIPv6 arp (gatewayIPsOf apbIPs ns))
      = [sentinelLabel] := by
    rw [hcoll]
    rfl
  refine ⟨hallow, ?_, by decide, ?_⟩
  · simp only [syncConntrackForExternalGateways, hallow, podSweep]
  · intro mac h6 heq
    rw [heq] at h6
    exact absurd h6 (by decide)

/-- C3 witness: a namespace with empty gateway annotations, no policy-engine
IPs and a pod owning two IPs gets exactly two UDP deletions, each carrying
the one-element sentinel allow-list. -/
theorem syncConntrack_sentinel_purge_witness :
    syncConntrackForExternalGateways (.ok []) ⟨"wns", "", ""⟩ (fun _ => false)
        (fun _ => none) (.ok [⟨"wns", "q", .ips ["10.1.0.5", "10.1.0.6"]⟩])
        (fun _ => none)
      = .done [⟨"10.1.0.5", 0, .UDP, [sentinelLabel]⟩,
               ⟨"10.1.0.6", 0, .UDP, [sentinelLabel]⟩] [] :=
  ((syncConntrack_sentinel_purge [] ⟨"wns", "", ""⟩ (fun _ => false)
      (fun _ => none) [⟨"wns", "q", .ips ["10.1.0.5", "10.1.0.6"]⟩]
      (fun _ => none) (by decide)).2.1).trans (by decide)

/-- Any prefix of non-matching observations is consumed without success. -/
theorem zoneMatch_success_first (desired : String) (pre rest : List ZoneObs)
    (e1 : ZoneErr1) (hpre : ∀ o ∈ pre, zoneObsMatches desired o = false) :
    zoneMatchRun desired (pre ++ ZoneObs.zone desired :: rest) e1
      = .ok desired := by
  induction pre generalizing e1 with
  | nil => simp [zoneMatchRun]
  | cons o pre ih =>
    have ho := hpre o (List.mem_cons_self o pre)
    have hpre' : ∀ o' ∈ pre, zoneObsMatches desired o' = false :=
      fun o' h => hpre o' (List.mem_cons_of_mem o h)
    cases o with
    | getErr m =>
      simp only [List.cons_append, zoneMatchRun]
      exact ih _ hpre'
    | zone z =>
      have hne : desired ≠ z := by
        simpa [zoneObsMatches] using ho
      simp only [List.cons_append, zoneMatchRun, if_pos hne]
      exact ih _ hpre'

/-- A run whose observations never match and end on zone `z ≠ desired`
times out with an error carrying `z`. -/
theorem zoneMatch_timeout_last (desired : String) (init : List ZoneObs)
    (z : String) (e1 : ZoneErr1)
    (hall : ∀ o ∈ init, zoneObsMatches desired o = false)
    (hz : desired ≠ z) :
    zoneMatchRun desired (init ++ [ZoneObs.zone z]) e1
      = .error (.mismatch z) := by
  induction init generalizing e1 with
  | nil => simp [zoneMatchRun, if_pos hz]
  | cons o init ih =>
    have ho := hall o (List.mem_cons_self o init)
    have hall' : ∀ o' ∈ init, zoneObsMatches desired o' = false :=
      fun o' h => hall o' (List.mem_cons_of_mem o h)
    cases o with
    | getErr m =>
      simp only [List.cons_append, zoneMatchRun]
      exact ih _ hall'
    | zone z' =>
      have hne : desired ≠ z' := by
        simpa [zoneObsMatches] using ho
      simp only [List.cons_append, zoneMatchRun, if_pos hne]
      exact ih _ hall'

/-- C5: the zone-match wait polls every 500ms with a 300s timeout; it
succeeds at the first poll whose observed zone equals the desired zone, and
when no poll matches before the deadline it fails with an error carrying
the last observed (mismatched) zone. -/
theorem waitForZoneMatch_spec :
    zoneMatchPollMs = 500 ∧ zoneMatchTimeoutSec = 300
    ∧ (∀ (desired : String) (pre rest : List ZoneObs) (e1 : ZoneErr1),
        (∀ o ∈ pre, zoneObsMatches desired o = false) →
        zoneMatchRun desired (pre ++ ZoneObs.zone desired :: rest) e1
          = .ok desired)
    ∧ (∀ (desired : String) (init : List ZoneObs) (z : String)
         (e1 : ZoneErr1),
        (∀ o ∈ init, zoneObsMatches desired o = false) → desired ≠ z →
        zoneMatchRun desired (init ++ [ZoneObs.zone z]) e1
          = .error (.mismatch z)) :=
  ⟨rfl, rfl,
   fun desired pre rest e1 hpre =>
     zoneMatch_success_first desired pre rest e1 hpre,
   fun desired init z e1 hall hz =>
     zoneMatch_timeout_last desired init z e1 hall hz⟩

/-- C5 witness: the spec's example — desired zone "zoneA", observed sequence
["", "zoneB", "zoneB"] — times out with an error referencing "zoneB"; and a
sequence matching at its third poll succeeds. -/
theorem waitForZoneMatch_spec_witness :
    zoneMatchRun "zoneA" [.zone "", .zone "zoneB", .zone "zoneB"] .noneYet
      = .error (.mismatch "zoneB")
    ∧ zoneMatchRun "zoneA" [.zone "", .zone "zoneB", .zone "zoneA"] .noneYet
      = .ok "zoneA" :=
  ⟨waitForZoneMatch_spec.2.2.2 "zoneA" [.zone "", .zone "zoneB"] "zoneB"
     .noneYet (by decide) (by decide),
   waitForZoneMatch_spec.2.2.1 "zoneA" [.zone "", .zone "zoneB"] [] .noneYet
     (by decide)⟩

/-- C1 counterexample: the barrier's poll/timeout pair is not
(500ms, 1800s) — the `wait.PollUntilContextTimeout` call at the barrier
passes `300*time.Second`, not 1800 seconds. -/
theorem barrier_timeout_not_1800 :
    ¬(barrierPollMs = 500 ∧ barrierTimeoutSec = 1800) := by
  decide

/-- C1 (amended): the interconnect upgrade barrier polls every 500ms with a
timeout of 300 seconds, and when the barrier does not complete within its
environment sequence (the timeout), the HACK block performs no action and
the agent process terminates (`klog.Exitf`). -/
theorem barrier_constants_and_fatal_timeout (localName localZone : String)
    (envs : List PassEnv) (st0 : BarrierState) (a b c d : Bool)
    (h : barrierDone localName localZone envs st0 = false) :
    barrierPollMs = 500 ∧ barrierTimeoutSec = 300 ∧
      interconnectUpgradeHack localName localZone envs st0 a b c d
        = ([], .fatalExit) := by
  refine ⟨rfl, rfl, ?_⟩
  unfold interconnectUpgradeHack
  rw [h]
  simp

/-- C1 witness: with no successful pass before the deadline the HACK block
exits the process. -/
theorem barrier_fatal_timeout_witness :
    interconnectUpgradeHack "node1" "zone1" [] ⟨false, false, false⟩
      true true true true = ([], .fatalExit) :=
  (barrier_constants_and_fatal_timeout "node1" "zone1" [] ⟨false, false, false⟩
    true true true true rfl).2.2

/-- C2: in every execution of the HACK block — any barrier environment, any
outcome of the marker write, the annotation persistence and the two
credential retargets — each credential retarget in the event trace is
preceded by the marker write and by its persistence call. -/
theorem marker_write_before_retarget (localName localZone : String)
    (envs : List PassEnv) (st0 : BarrierState) (a b c d : Bool) :
    markerBeforeRetarget
      (interconnectUpgradeHack localName localZone envs st0 a b c d).1
      = true := by
  unfold interconnectUpgradeHack
  by_cases h : barrierDone localName localZone envs st0 = true
  · rw [if_pos h]
    cases a <;> cases b <;> cases c <;> cases d <;> decide
  · rw [if_neg h]
    decide

/-- C7 counterexample: with the southbound load-balancer table holding the
single name "Service_a/bc", the services-ready loop accepts the cluster-IP
service a/b even though no load balancer with the exact key "Service_a/b"
exists — the check is substring containment of the stitched key in the
fetched name blob, not exact-key existence. -/
theorem services_ready_exact_key_cex :
    servicesReadyLoop (joinLBNames ["Service_a/bc"])
        [⟨"a", "b", "10.0.0.1", true⟩] = true
    ∧ ("Service_" ++ "a" ++ "/" ++ "b") ∉ ["Service_a/bc"] := by
  constructor
  · decide
  · decide

/-- C7 (amended): the services-ready predicate holds exactly when, for every
service whose type supports a cluster IP and whose cluster IP is set, the
stitched key "Service_<namespace>/<name>" occurs as a substring of the
fetched southbound load-balancer name blob; services without a cluster IP
(headless) are excluded from the requirement. -/
theorem services_ready_substring_iff (lbNames : String)
    (services : List Service) :
    servicesReadyLoop lbNames services = true ↔
      ∀ s ∈ services, s.typeHasClusterIP = true → isClusterIPSet s = true →
        lbExists lbNames s.ns s.name = true := by
  induction services with
  | nil => simp [servicesReadyLoop]
  | cons s rest ih =>
    simp only [servicesReadyLoop, List.mem_cons]
    cases hb : (s.typeHasClusterIP && isClusterIPSet s) with
    | false =>
      rw [if_pos (by rfl)]
      rw [ih]
      constructor
      · intro h s' hs' ht hc
        rcases hs' with rfl | hs'
        · rw [ht, hc] at hb
          cases hb
        · exact h s' hs' ht hc
      · intro h s' hs' ht hc
        exact h s' (Or.inr hs') ht hc
    | true =>
      rw [if_neg (by simp)]
      have hb' := hb
      simp only [Bool.and_eq_true] at hb'
      obtain ⟨ht0, hc0⟩ := hb'
      by_cases h2 : lbExists lbNames s.ns s.name = true
      · rw [if_pos h2]
        rw [ih]
        constructor
        · intro h s' hs' ht hc
          rcases hs' with rfl | hs'
          · exact h2
          · exact h s' hs' ht hc
        · intro h s' hs' ht hc
          exact h s' (Or.inr hs') ht hc
      · rw [if_neg h2]
        constructor
        · intro hfalse
          cases hfalse
        · intro h
          exact absurd (h s (Or.inl rfl) ht0 hc0) h2

/-- C7 witness: a table holding exactly the stitched key of the only
cluster-IP service satisfies the services-ready predicate. -/
theorem services_ready_substring_iff_witness :
    servicesReadyLoop (joinLBNames ["Service_c/d"])
      [⟨"c", "d", "10.0.0.3", true⟩] = true :=
  (services_ready_substring_iff (joinLBNames ["Service_c/d"])
    [⟨"c", "d", "10.0.0.3", true⟩]).mpr (by decide)

/-- Pointwise ordering of the cached barrier flags: each flag of `s` that is
already true stays true in `t`. -/
def stateLe (s t : BarrierState) : Prop :=
  (s.syncNodes = true → t.syncNodes = true) ∧
  (s.syncServices = true → t.syncServices = true) ∧
  (s.syncPods = true → t.syncPods = true)

theorem stateLe_refl (s : BarrierState) : stateLe s s :=
  ⟨id, id, id⟩

theorem stateLe_trans {s t u : BarrierState} (h1 : stateLe s t)
    (h2 : stateLe t u) : stateLe s u :=
  ⟨fun h => h2.1 (h1.1 h), fun h => h2.2.1 (h1.2.1 h),
   fun h => h2.2.2 (h1.2.2 h)⟩

/-- The nodes block never unsets a cached flag. -/
theorem nodesBlock_le (ln lz : String) (env : PassEnv) (st : BarrierState) :
    stateLe st (nodesBlock ln lz env st).1 := by
  unfold nodesBlock
  by_cases h : st.syncNodes = true
  · rw [if_pos h]
    exact stateLe_refl st
  · rw [if_neg h]
    cases henv : env.nodesRes with
    | error e => exact stateLe_refl st
    | ok nodes =>
      dsimp only
      by_cases h2 : nodesReadyLoop ln lz env.lrsr nodes = true
      · rw [if_pos h2]
        exact ⟨fun _ => rfl, fun hx => hx, fun hx => hx⟩
      · rw [if_neg h2]
        exact stateLe_refl st

/-- The services block never unsets a cached flag. -/
theorem servicesBlock_le (env : PassEnv) (st : BarrierState) :
    stateLe st (servicesBlock env st).1 := by
  unfold servicesBlock
  by_cases h : st.syncServices = true
  · rw [if_pos h]
    exact stateLe_refl st
  · rw [if_neg h]
    cases henv : env.servicesRes with
    | error e => exact stateLe_refl st
    | ok services =>
      dsimp only
      by_cases h2 : servicesReadyLoop
          (if env.lbFetchOk then joinLBNames env.lbTable else "") services
          = true
      · rw [if_pos h2]
        exact ⟨fun hx => hx, fun _ => rfl, fun hx => hx⟩
      · rw [if_neg h2]
        exact stateLe_refl st

/-- The pods block never unsets a cached flag. -/
theorem podsBlock_le (ln : String) (env : PassEnv) (st : BarrierState) :
    stateLe st (podsBlock ln env st).1 := by
  unfold podsBlock
  by_cases h : st.syncPods = true
  · rw [if_pos h]
    exact stateLe_refl st
  · rw [if_neg h]
    cases henv : env.podsRes with
    | error e => exact stateLe_refl st
    | ok pods =>
      dsimp only
      by_cases h2 : podsReadyLoop ln env.portEx pods = true
      · rw [if_pos h2]
        exact ⟨fun hx => hx, fun hx => hx, fun _ => rfl⟩
      · rw [if_neg h2]
        exact stateLe_refl st

/-- One barrier pass only moves the cached flags from false to true. -/
theorem barrierPass_le (ln lz : String) (env : PassEnv) (st : BarrierState) :
    stateLe st (barrierPass ln lz env st).1 := by
  unfold barrierPass
  have h1 := nodesBlock_le ln lz env st
  have h2 := servicesBlock_le env (nodesBlock ln lz env st).1
  have h3 := podsBlock_le ln env (servicesBlock env (nodesBlock ln lz env st).1).1
  dsimp only
  split
  · exact h1
  · split
    · exact stateLe_trans h1 h2
    · exact stateLe_trans h1 (stateLe_trans h2 h3)

/-- The evaluation record of one pass: the nodes predicate is evaluated
exactly when its flag was false on entry, and a predicate whose flag is
already true on entry is not evaluated. -/
theorem barrierPass_evals (ln lz : String) (env : PassEnv)
    (st : BarrierState) :
    (barrierPass ln lz env st).2.2.nodesEvaluated = !st.syncNodes
    ∧ (st.syncServices = true →
        (barrierPass ln lz env st).2.2.servicesEvaluated = false)
    ∧ (st.syncPods = true →
        (barrierPass ln lz env st).2.2.podsEvaluated = false) := by
  unfold barrierPass
  dsimp only
  split
  · exact ⟨rfl, fun _ => rfl, fun _ => rfl⟩
  · split
    · refine ⟨rfl, ?_, fun _ => rfl⟩
      intro hs
      have h := (nodesBlock_le ln lz env st).2.1 hs
      simp [h]
    · refine ⟨rfl, ?_, ?_⟩
      · intro hs
        have h := (nodesBlock_le ln lz env st).2.1 hs
        simp [h]
      · intro hp
        have ha := (nodesBlock_le ln lz env st).2.2 hp
        have hb := (servicesBlock_le env (nodesBlock ln lz env st).1).2.2 ha
        simp [hb]

/-- Any property preserved by one pass holds at the entry state of every
pass the barrier trace records. -/
theorem barrierTrace_invariant (ln lz : String) (P : BarrierState → Prop)
    (hP : ∀ env st, P st → P (barrierPass ln lz env st).1) :
    ∀ (envs : List PassEnv) (st0 : BarrierState), P st0 →
      ∀ e ∈ barrierTrace ln lz envs st0, P e.1 := by
  intro envs
  induction envs with
  | nil =>
    intro st0 _ e he
    cases he
  | cons env rest ih =>
    intro st0 h0 e he
    unfold barrierTrace at he
    dsimp only at he
    rcases List.mem_cons.mp he with rfl | he'
    · exact h0
    · by_cases hd : (barrierPass ln lz env st0).2.1 = true
      · rw [if_pos hd] at he'
        cases he'
      · rw [if_neg hd] at he'
        exact ih _ (hP env st0 h0) e he'

/-- Every element of a barrier trace pairs its entry state with the
evaluation record of a pass run from that very state. -/
theorem barrierTrace_elem (ln lz : String) :
    ∀ (envs : List PassEnv) (st0 : BarrierState)
      (e : BarrierState × PassEvals), e ∈ barrierTrace ln lz envs st0 →
      ∃ env, e.2 = (barrierPass ln lz env e.1).2.2 := by
  intro envs
  induction envs with
  | nil =>
    intro st0 e he
    cases he
  | cons env rest ih =>
    intro st0 e he
    unfold barrierTrace at he
    dsimp only at he
    rcases List.mem_cons.mp he with rfl | he'
    · exact ⟨env, rfl⟩
    · by_cases hd : (barrierPass ln lz env st0).2.1 = true
      · rw [if_pos hd] at he'
        cases he'
      · rw [if_neg hd] at he'
        exact ih _ e he'

/-- Whatever follows an element of a barrier trace is itself a barrier trace
started from a state at least as advanced as that element's entry state. -/
theorem barrierTrace_suffix (ln lz : String) :
    ∀ (envs : List PassEnv) (st0 : BarrierState)
      (pre post : List (BarrierState × PassEvals))
      (x : BarrierState × PassEvals),
      barrierTrace ln lz envs st0 = pre ++ x :: post →
      ∃ envs2 st2, stateLe x.1 st2 ∧ post = barrierTrace ln lz envs2 st2 := by
  intro envs
  induction envs with
  | nil =>
    intro st0 pre post x h
    rw [show barrierTrace ln lz [] st0 = [] from rfl] at h
    cases pre with
    | nil => cases h
    | cons p pre' => cases h
  | cons env rest ih =>
    intro st0 pre post x h
    unfold barrierTrace at h
    dsimp only at h
    cases pre with
    | nil =>
      rw [List.nil_append] at h
      injection h with hx htail
      by_cases hd : (barrierPass ln lz env st0).2.1 = true
      · rw [if_pos hd] at htail
        refine ⟨[], (barrierPass ln lz env st0).1, ?_, ?_⟩
        · rw [← hx]
          exact barrierPass_le ln lz env st0
        · rw [← htail]
          rfl
      · rw [if_neg hd] at htail
        refine ⟨rest, (barrierPass ln lz env st0).1, ?_, htail.symm⟩
        rw [← hx]
        exact barrierPass_le ln lz env st0
    | cons p pre' =>
      rw [List.cons_append] at h
      injection h with _hhead htail
      by_cases hd : (barrierPass ln lz env st0).2.1 = true
      · rw [if_pos hd] at htail
        cases pre' with
        | nil => cases htail
        | cons q pre'' => cases htail
      · rw [if_neg hd] at htail
        exact ih _ pre' post x htail

/-- C6: along any single run of the barrier, once a pass starts with a
cached readiness flag set, every later pass also has it set (flags only
move false to true) and never evaluates that predicate again. -/
theorem barrier_cached_predicates (ln lz : String) (envs : List PassEnv)
    (st0 : BarrierState) (pre post : List (BarrierState × PassEvals))
    (x : BarrierState × PassEvals)
    (hsplit : barrierTrace ln lz envs st0 = pre ++ x :: post) :
    ∀ y ∈ post,
      (x.1.syncNodes = true →
        y.1.syncNodes = true ∧ y.2.nodesEvaluated = false)
      ∧ (x.1.syncServices = true →
        y.1.syncServices = true ∧ y.2.servicesEvaluated = false)
      ∧ (x.1.syncPods = true →
        y.1.syncPods = true ∧ y.2.podsEvaluated = false) := by
  obtain ⟨envs2, st2, hle, hpost⟩ :=
    barrierTrace_suffix ln lz envs st0 pre post x hsplit
  intro y hy
  rw [hpost] at hy
  obtain ⟨env', hev⟩ := barrierTrace_elem ln lz envs2 st2 y hy
  refine ⟨?_, ?_, ?_⟩
  · intro hx
    have hyst : y.1.syncNodes = true :=
      barrierTrace_invariant ln lz (fun st => st.syncNodes = true)
        (fun env st h => (barrierPass_le ln lz env st).1 h)
        envs2 st2 (hle.1 hx) y hy
    refine ⟨hyst, ?_⟩
    rw [hev, (barrierPass_evals ln lz env' y.1).1, hyst]
    rfl
  · intro hx
    have hyst : y.1.syncServices = true :=
      barrierTrace_invariant ln lz (fun st => st.syncServices = true)
        (fun env st h => (barrierPass_le ln lz env st).2.1 h)
        envs2 st2 (hle.2.1 hx) y hy
    refine ⟨hyst, ?_⟩
    rw [hev]
    exact (barrierPass_evals ln lz env' y.1).2.1 hyst
  · intro hx
    have hyst : y.1.syncPods = true :=
      barrierTrace_invariant ln lz (fun st => st.syncPods = true)
        (fun env st h => (barrierPass_le ln lz env st).2.2 h)
        envs2 st2 (hle.2.2 hx) y hy
    refine ⟨hyst, ?_⟩
    rw [hev]
    exact (barrierPass_evals ln lz env' y.1).2.2 hyst

/-- C6 witness: a run whose first pass finds the nodes ready (empty node
list) but fails on services keeps the nodes flag set on the later passes and
does not re-evaluate the nodes predicate there. -/
theorem barrier_cached_predicates_witness :
    (⟨true, false, false⟩ : BarrierState).syncNodes = true
    ∧ (⟨false, true, false⟩ : PassEvals).nodesEvaluated = false :=
  (barrier_cached_predicates "n" "z"
    [⟨Except.ok [], fun _ => false, Except.error "down", [], false,
       Except.error "down", fun _ _ => false⟩,
     ⟨Except.ok [], fun _ => false, Except.error "down", [], false,
       Except.error "down", fun _ _ => false⟩,
     ⟨Except.ok [], fun _ => false, Except.error "down", [], false,
       Except.error "down", fun _ _ => false⟩]
    ⟨false, false, false⟩
    [(⟨false, false, false⟩, ⟨true, true, false⟩)]
    [(⟨true, false, false⟩, ⟨false, true, false⟩)]
    (⟨true, false, false⟩, ⟨false, true, false⟩)
    (by decide)
    (⟨true, false, false⟩, ⟨false, true, false⟩) (by decide)).1 rfl

end OvnKubeNode
